import Mathlib

/-!
Verification development for the argument-parsing core in
src/lib/argument_parser.js (an early JavaScript port of Python argparse).

The embedding below translates the parsing algorithm of that file into
executable Lean definitions.  Conventions:

* JavaScript strings of the `{A, O, -}` token-pattern alphabet become
  `List PChar`; the dash is the constructor `PChar.D`.
* The regular expressions built by `_getNargsPattern` are embedded as lists
  of `Atom`s (character class, greedy star, optional character), one capture
  group per action; `groupsMatch` implements the backtracking semantics of
  the JavaScript regex engine (greedy, leftmost alternative first) for this
  restricted pattern shape, and `reSearch` implements the unanchored
  `String.prototype.match` search (try position 0, then 1, ...).
* Thrown JavaScript errors become `Except ParseErr`; message strings are
  replaced by constructors carrying the same data (action identity, raw
  token, candidate list, nargs kind).
* JavaScript `NaN` indices (which arise in `consumePositionals` when
  underscore's `_.zip` pads with `undefined`) are modelled by `JIdx.nan`,
  with the ECMAScript coercions NaN-to-0 for `slice`/`substr` starts and
  false for NaN comparisons.
* Action objects are compared by identity in the source (`_.indexOf` on the
  seen lists); the embedding gives every action a numeric `id` used for
  those lists.
* Values stored in the result namespace are modelled by `JVal` (a scalar or
  an array of scalars); converters are modelled as functions returning a
  scalar or failing, which covers every converter the repository registers.
-/

set_option maxRecDepth 4000

/-- Characters of the token-pattern alphabet: `A` (argument), `O` (option),
`D` (the dash emitted for a literal `--` separator). -/
inductive PChar where
  | A
  | O
  | D
deriving DecidableEq, Repr

/-- Nargs kinds of an action, the closed form of the sentinels in const.js:
`dflt` is the JavaScript `null`/`undefined` default (one argument), `num n`
an integer count, `optionalQ` is OPTIONAL (`?`), `zeroOrMore` (`*`),
`oneOrMore` (`+`), `remainder` (REMAINDER), `parserCmd` (PARSER). -/
inductive Nargs where
  | dflt
  | num (n : Nat)
  | optionalQ
  | zeroOrMore
  | oneOrMore
  | remainder
  | parserCmd
deriving DecidableEq, Repr

/-- JavaScript `!action.nargs`: `undefined`/`null` and the number `0` are
falsy, every other nargs sentinel is truthy. -/
def Nargs.isFalsy : Nargs → Bool
  | .dflt => true
  | .num 0 => true
  | _ => false

/-- Scalar JavaScript values flowing through the parser. -/
inductive JScalar where
  | undef
  | null
  | str (s : String)
  | num (n : Int)
  | bool (b : Bool)
deriving DecidableEq, Repr

/-- A value stored in the result namespace: a scalar or an array of
scalars (the shape every `_getValues` branch produces). -/
inductive JVal where
  | scalar (v : JScalar)
  | list (xs : List JScalar)
deriving DecidableEq, Repr

/-- JavaScript truthiness of a `JVal`; arrays (empty included) are truthy. -/
def JVal.isTruthy : JVal → Bool
  | .scalar .undef => false
  | .scalar .null => false
  | .scalar (.str s) => s ≠ ""
  | .scalar (.num n) => n ≠ 0
  | .scalar (.bool b) => b
  | .list _ => true

/-- The SUPPRESS sentinel from const.js. -/
def suppressVal : JVal := .scalar (.str "==SUPPRESS==")

/-- The result namespace, an assignment of destination keys to values. -/
def NS := List (String × JVal)

/-- Set a key in the namespace, replacing an existing binding in place. -/
def nsSet (ns : NS) (k : String) (v : JVal) : NS :=
  match ns with
  | [] => [(k, v)]
  | (k0, v0) :: rest => if k0 = k then (k, v) :: rest else (k0, v0) :: nsSet rest k v

/-- One declared argument (flag or positional).  `id` models JavaScript
object identity for the seen-action lists; `typeF` is the already-resolved
converter (registry lookup happens at schema-build time, outside the core);
`callF` is the Action's `call` method, which applies the fired value to the
namespace.  Modelled from the spec: the Action class itself lives in the
schema collaborator outside src/, with names/dest/arity/converter/default/
required/choices/constant exactly as listed in the data model. -/
structure JAction where
  id : Nat
  optionStrings : List String
  dest : String
  nargs : Nargs
  typeF : String → Option JScalar
  defaultValue : JVal := .scalar .null
  constant : JVal := .scalar .undef
  required : Bool := false
  choices : Option (List JVal) := none
  callF : NS → JVal → Option String → NS

/-- Modelled from the spec: an Action with no option strings is positional
(`isPositional`/`isOptional` live in the action class outside src/). -/
def JAction.isOptional (a : JAction) : Bool := !a.optionStrings.isEmpty

/-- Modelled from the spec: positional means no option strings. -/
def JAction.isPositional (a : JAction) : Bool := a.optionStrings.isEmpty

/-- The parser schema consumed by the core: the action list, the option
string lookup (`_optionStringActions`, kept in insertion order because
JavaScript `for..in` iterates string keys in that order), the prefix
characters, and the negative-number-options flag maintained by the
container collaborator. -/
structure Schema where
  actions : List JAction
  optionStringActions : List (String × JAction)
  prefixChars : List Char := ['-']
  hasNegativeNumberOptionals : Bool := false

/-- First action registered under an option string, as JavaScript property
lookup on `_optionStringActions`. -/
def lookupOptAct (S : Schema) (os : String) : Option JAction :=
  (S.optionStringActions.find? (fun p => p.1 = os)).map (·.2)

/-- Parse-time errors.  Each constructor replaces one formatted message of
the source with the data that message interpolates. -/
inductive ParseErr where
  | ambiguousOption (argument : String) (candidates : List String)
  | invalidValue (actionId : Nat) (value : String)
  | invalidChoice (actionId : Nat) (value : JVal)
  | arityError (actionId : Nat) (nargs : Nargs)
  | ignoredExplicitArg (actionId : Nat)
  | conflictErr (actionId : Nat) (conflictId : Nat)
  | tooFewArguments
  | missingRequired (actionId : Nat)
  | internalErr (msg : String)
deriving DecidableEq, Repr

/-- Atoms of the embedded regular expressions over `PChar`: a character
class, a greedy star of a character class, an optional character class. -/
inductive Atom where
  | chr (cs : List PChar)
  | star (cs : List PChar)
  | opt (cs : List PChar)
deriving DecidableEq, Repr

/-- Length of the longest prefix of `s` drawn from the class `cs`. -/
def countLeading (cs : List PChar) : List PChar → Nat
  | [] => 0
  | c :: rest => if c ∈ cs then countLeading cs rest + 1 else 0

/-- Consumption lengths an atom can take at the head of `s`, in the order a
backtracking regex engine tries them (greedy star: longest first; optional:
present before absent). -/
def atomLens (a : Atom) (s : List PChar) : List Nat :=
  match a with
  | .chr cs =>
      match s with
      | [] => []
      | c :: _ => if c ∈ cs then [1] else []
  | .opt cs =>
      match s with
      | [] => [0]
      | c :: _ => if c ∈ cs then [1, 0] else [0]
  | .star cs => (List.range (countLeading cs s + 1)).reverse

/-- First success of `f` over a list, in order. -/
def firstSome (f : α → Option β) : List α → Option β
  | [] => none
  | a :: rest =>
      match f a with
      | some b => some b
      | none => firstSome f rest

/-- Backtracking match of a sequence of atoms at the head of `s`: tries the
atoms' consumption lengths in engine order and returns the first assignment
under which the continuation `k` succeeds, together with the total length
the atoms consumed. -/
def seqMatch : List Atom → List PChar → (List PChar → Option (List Nat)) → Option (Nat × List Nat)
  | [], s, k => (k s).map (fun r => (0, r))
  | a :: as, s, k =>
      firstSome
        (fun n => (seqMatch as (s.drop n) k).map (fun p => (n + p.1, p.2)))
        (atomLens a s)

/-- Backtracking match of a list of capture groups (each a sequence of
atoms) anchored at the head of `s`; returns the lengths of the groups'
captures of the first overall match, exactly as the JavaScript engine
reports them.  The match need not reach the end of `s`. -/
def groupsMatch : List (List Atom) → List PChar → Option (List Nat)
  | [], _ => some []
  | g :: gs, s =>
      match seqMatch g s (fun t => groupsMatch gs t) with
      | some (n, rest) => some (n :: rest)
      | none => none

/-- Unanchored search of `String.prototype.match`: try the pattern at
position 0, then 1, and so on, returning the captures of the leftmost
match. -/
def reSearch (gs : List (List Atom)) : List PChar → Option (List Nat)
  | [] => groupsMatch gs []
  | c :: rest =>
      match groupsMatch gs (c :: rest) with
      | some r => some r
      | none => reSearch gs rest

/-- Positional-side grammar of `_getNargsPattern` for one nargs kind, one
capture group per action, dashes allowed exactly as in the source. -/
def getNargsPatternPos (n : Nargs) : List Atom :=
  match n with
  | .dflt => [.star [.D], .chr [.A], .star [.D]]
  | .optionalQ => [.star [.D], .opt [.A], .star [.D]]
  | .zeroOrMore => [.star [.D], .star [.A, .D]]
  | .oneOrMore => [.star [.D], .chr [.A], .star [.A, .D]]
  | .remainder => [.star [.D, .A, .O]]
  | .parserCmd => [.star [.D], .chr [.A], .star [.D, .A, .O]]
  | .num k => .star [.D] :: (List.replicate k [Atom.star [.D], Atom.chr [.A]]).flatten ++ [.star [.D]]

/-- The textual dash-stripping of `_getNargsPattern` for optional actions:
the replace of every dash-star deletes the `star [D]` atoms, the replace of
every remaining dash removes `D` from the character classes. -/
def stripDash (a : Atom) : Option Atom :=
  match a with
  | .star cs =>
      let cs' := cs.filter (· ≠ .D)
      if cs' = [] then none else some (.star cs')
  | .chr cs => some (.chr (cs.filter (· ≠ .D)))
  | .opt cs => some (.opt (cs.filter (· ≠ .D)))

/-- Grammar of `_getNargsPattern` for an action: the positional grammar,
with dashes stripped when the action is an optional. -/
def getNargsPattern (a : JAction) : List Atom :=
  let p := getNargsPatternPos a.nargs
  if a.isOptional then p.filterMap stripDash else p

/-- Embedding of `_matchArgument`: search the action's grammar in the
pattern window (the source builds `new RegExp` without an anchor, so this
is the unanchored `match` search) and return the first capture's length;
a failed search raises the arity error for the action's nargs kind. -/
def matchArgument (a : JAction) (pat : List PChar) : Except ParseErr Nat :=
  match reSearch [getNargsPattern a] pat with
  | some (n :: _) => .ok n
  | _ => .error (.arityError a.id a.nargs)

/-- Countdown of `_matchArgumentsPartial`: try the concatenated grammars of
the first `i` actions, then `i - 1`, returning the capture lengths of the
first list length that matches and `[]` when none does. -/
def matchArgumentsPartialAux (actions : List JAction) (pat : List PChar) : Nat → List Nat
  | 0 => []
  | i + 1 =>
      match reSearch ((actions.take (i + 1)).map getNargsPattern) pat with
      | some counts => counts
      | none => matchArgumentsPartialAux actions pat i

/-- Embedding of `_matchArgumentsPartial`. -/
def matchArgumentsPartial (actions : List JAction) (pat : List PChar) : List Nat :=
  matchArgumentsPartialAux actions pat actions.length

/-- Character at index `i` of a string, JavaScript bracket indexing
(undefined out of range becomes `none`). -/
def jsCharAt (s : String) (i : Nat) : Option Char :=
  s.toList.get? i

/-- JavaScript membership test `chars.indexOf(x) >= 0` where `x` may be the
undefined out-of-range character. -/
def prefixCharAt (S : Schema) (s : String) (i : Nat) : Bool :=
  match jsCharAt s i with
  | some c => S.prefixChars.contains c
  | none => false

/-- Whether a string contains a character (`indexOf(c) >= 0`). -/
def jsContainsChar (s : String) (c : Char) : Bool :=
  s.toList.contains c

/-- Prefix test on strings (`substr(0, p.length) === p`), computed on the
character lists. -/
def jsStartsWith (s pre : String) : Bool :=
  pre.toList.isPrefixOf s.toList

/-- The first `n` characters of a string. -/
def jsTake (s : String) (n : Nat) : String :=
  ⟨s.toList.take n⟩

/-- The string without its first `n` characters. -/
def jsDrop (s : String) (n : Nat) : String :=
  ⟨s.toList.drop n⟩

/-- JavaScript `split(c)` on a single character: every occurrence splits. -/
def splitCharAux (c : Char) : List Char → List Char → List String
  | [], acc => [⟨acc.reverse⟩]
  | x :: rest, acc =>
      if x = c then ⟨acc.reverse⟩ :: splitCharAux c rest []
      else splitCharAux c rest (x :: acc)

/-- JavaScript `String.prototype.split` on one character. -/
def jsSplitChar (c : Char) (s : String) : List String :=
  splitCharAux c s.toList []

/-- Modelled from the spec: the negative-number shape test
(`_regexpNegativeNumber`, a field of the ActionContainer collaborator
outside src/) recognizes a dash followed by digits, or a dash, digits, a
dot and more digits. -/
def isNegativeNumber (s : String) : Bool :=
  match s.toList with
  | '-' :: rest =>
      let frac := rest.dropWhile Char.isDigit
      (decide (rest ≠ []) && frac.isEmpty) ||
        (match frac with
         | '.' :: fr => decide (fr ≠ []) && fr.all Char.isDigit
         | _ => false)
  | _ => false

/-- The option tuple of the data model: resolved action (none for an
option-shaped token that matched nothing), the matched option string, and
the explicit argument if one was split off. -/
structure OptionTuple where
  action : Option JAction
  optionString : String
  explicitArg : Option String

/-- Decidable projection of an option tuple: the action collapsed to its
identity. -/
def tupleView (t : OptionTuple) : Option Nat × String × Option String :=
  (t.action.map (·.id), t.optionString, t.explicitArg)

/-- Embedding of `_getOptionTuples`.  For a token starting with two prefix
characters the source computes the portion before `=` with
`split('=', 1)`, whose JavaScript semantics keeps only the first segment,
so the element at index 1 — assigned to the explicit argument — is
undefined (`none` here).  For a single-prefix token, the whole token is
used as prefix and additionally a known two-character option string equal
to the token's first two characters matches with the rest as clustered
explicit argument. -/
def getOptionTuples (S : Schema) (optionString : String) : Except ParseErr (List OptionTuple) :=
  if prefixCharAt S optionString 0 && prefixCharAt S optionString 1 then
    let optionPrefix :=
      if jsContainsChar optionString '=' then (jsSplitChar '=' optionString).headD optionString
      else optionString
    .ok (S.optionStringActions.filterMap (fun p =>
      if jsStartsWith p.1 optionPrefix then some ⟨some p.2, p.1, none⟩ else none))
  else if prefixCharAt S optionString 0 && !prefixCharAt S optionString 1 then
    let optionPrefix := optionString
    let optionPrefixShort := jsTake optionString 2
    let argExplicitShort := jsDrop optionString 2
    .ok (S.optionStringActions.filterMap (fun p =>
      if p.1 = optionPrefixShort then some ⟨some p.2, p.1, some argExplicitShort⟩
      else if jsStartsWith p.1 optionPrefix then some ⟨some p.2, p.1, none⟩
      else none))
  else
    .error (.internalErr "Unexpected option string")

/-- Embedding of `_parseOptional`: classify one raw token, returning `none`
when the token is meant to be positional, a tuple otherwise; an ambiguous
prefix raises (the source calls `this.error`, fatal to the parse), with the
candidate option strings in declaration order. -/
def parseOptional (S : Schema) (argString : String) : Except ParseErr (Option OptionTuple) :=
  if argString = "" then .ok none
  else if !prefixCharAt S argString 0 then .ok none
  else
    match lookupOptAct S argString with
    | some action => .ok (some ⟨some action, argString, none⟩)
    | none =>
      if argString.length = 1 then .ok none
      else
        let eqSplit : Option OptionTuple :=
          if jsContainsChar argString '=' then
            let parts := jsSplitChar '=' argString
            let optionString := parts.headD argString
            let argExplicit := (parts.get? 1).getD ""
            match lookupOptAct S optionString with
            | some action => some ⟨some action, optionString, some argExplicit⟩
            | none => none
          else none
        match eqSplit with
        | some t => .ok (some t)
        | none => do
          let optionTuples ← getOptionTuples S argString
          if optionTuples.length > 1 then
            .error (.ambiguousOption argString (optionTuples.map (·.optionString)))
          else
            match optionTuples with
            | [t] => .ok (some t)
            | _ =>
              if isNegativeNumber argString && !S.hasNegativeNumberOptionals then .ok none
              else if jsContainsChar argString ' ' then .ok none
              else .ok (some ⟨none, argString, none⟩)

/-- Embedding of the token-classification pass of `_parseKnownArgs`
(lines 305-335).  The source iterates with `forEach`; on a literal `--` it
pushes one dash and then, in an inner while loop starting at the
separator's own index, one `A` per index up to the end of the input — and
because `forEach` continues afterwards, every later token is processed
again, including another full option resolution.  Returns the pattern
parts and the option-tuple map keyed by true token index. -/
def classifyGo (S : Schema) (total : Nat) : List (Nat × String) → Except ParseErr (List PChar × List (Nat × OptionTuple))
  | [] => .ok ([], [])
  | (i, s) :: rest =>
      if s = "--" then do
        let (p, m) ← classifyGo S total rest
        .ok ((PChar.D :: List.replicate (total - i) PChar.A) ++ p, m)
      else do
        let t? ← parseOptional S s
        let (p, m) ← classifyGo S total rest
        match t? with
        | none => .ok (PChar.A :: p, m)
        | some t => .ok (PChar.O :: p, (i, t) :: m)

/-- Token classification over a full input: pattern string and option-tuple
map. -/
def classify (S : Schema) (argStrings : List String) : Except ParseErr (List PChar × List (Nat × OptionTuple)) :=
  classifyGo S argStrings.length argStrings.enum

/-- Embedding of `_getValue`: run the action's converter; a converter
throw becomes the invalid-value error naming the action and the raw
string. -/
def getValue (a : JAction) (argString : String) : Except ParseErr JScalar :=
  match a.typeF argString with
  | some v => .ok v
  | none => .error (.invalidValue a.id argString)

/-- Embedding of `_checkValue` for the array-shaped choice sets the
repository uses: a declared choice set that does not contain the value is
the invalid-choice error. -/
def checkValue (a : JAction) (v : JVal) : Except ParseErr Unit :=
  match a.choices with
  | none => .ok ()
  | some cs => if cs.contains v then .ok () else .error (.invalidChoice a.id v)

/-- The map of `_getValues` over the argument strings (JavaScript `map`
with a throwing callback: first converter failure aborts). -/
def mapGetValues (a : JAction) : List String → Except ParseErr (List JScalar)
  | [] => .ok []
  | s :: rest => do
      let v ← getValue a s
      let vs ← mapGetValues a rest
      .ok (v :: vs)

/-- The `forEach` of `_getValues` running `_checkValue` over converted
values. -/
def checkValues (a : JAction) : List JScalar → Except ParseErr Unit
  | [] => .ok ()
  | v :: rest => do
      checkValue a (.scalar v)
      checkValues a rest

/-- Embedding of `_getValues`, branch for branch: strip `--` except for
PARSER/REMAINDER; empty plus OPTIONAL uses constant (for an optional) or
default, converting and choice-checking only when it is a string; empty
plus ZERO_OR_MORE on an optional uses the default when truthy, else the
empty array, choice-checked as a whole; a single token with falsy or
OPTIONAL nargs converts and checks that token; REMAINDER converts all and
checks none; PARSER converts all and checks only the element at index 0
(undefined when there is none); everything else converts all and checks
each. -/
def getValuesCore (a : JAction) (argStrings : List String) : Except ParseErr JVal :=
  if argStrings.length = 0 && a.nargs = .optionalQ then
    let value := if a.isOptional then a.constant else a.defaultValue
    match value with
    | .scalar (.str s) => do
        let v ← getValue a s
        checkValue a (.scalar v)
        .ok (.scalar v)
    | v => .ok v
  else if argStrings.length = 0 && a.nargs = .zeroOrMore && a.isOptional then
    let value := if a.defaultValue.isTruthy then a.defaultValue else .list []
    do
      checkValue a value
      .ok value
  else if argStrings.length = 1 && (a.nargs.isFalsy || a.nargs = .optionalQ) then do
    let v ← getValue a (argStrings.headD "")
    checkValue a (.scalar v)
    .ok (.scalar v)
  else if a.nargs = .remainder then do
    let vs ← mapGetValues a argStrings
    .ok (.list vs)
  else if a.nargs = .parserCmd then do
    let vs ← mapGetValues a argStrings
    checkValue a (.scalar (vs.headD .undef))
    .ok (.list vs)
  else do
    let vs ← mapGetValues a argStrings
    checkValues a vs
    .ok (.list vs)

/-- Embedding of the opening reassignment of `_getValues`: for everything
but PARSER and REMAINDER arguments, the `--` tokens are stripped before
the branch chain runs. -/
def getValues (a : JAction) (argStrings0 : List String) : Except ParseErr JVal :=
  getValuesCore a
    (if a.nargs ≠ .parserCmd && a.nargs ≠ .remainder then
      argStrings0.filter (fun x => x ≠ "--")
    else argStrings0)

/-- A JavaScript numeric index: a natural number or NaN.  NaN arises in
`consumePositionals` when an undefined zip-padded count is added to the
scan index. -/
inductive JIdx where
  | nan
  | idx (n : Nat)
deriving DecidableEq, Repr

/-- ECMAScript coercion of an index used as a `slice`/`substr` start or
end: NaN coerces to 0. -/
def JIdx.toNat : JIdx → Nat
  | .nan => 0
  | .idx n => n

/-- JavaScript addition of a possibly-undefined count to an index:
anything plus undefined, and NaN plus anything, is NaN. -/
def jAdd : JIdx → Option Nat → JIdx
  | .nan, _ => .nan
  | .idx _, none => .nan
  | .idx n, some m => .idx (n + m)

/-- JavaScript `>` on an index against a number: false when NaN. -/
def jGt (a : JIdx) (n : Nat) : Bool :=
  match a with
  | .nan => false
  | .idx m => n < m

/-- `Array.prototype.slice(start, end)` for the index values that occur
here (naturals and NaN, both clamped through `JIdx.toNat`). -/
def jsSlice (l : List α) (s e : JIdx) : List α :=
  (l.take e.toNat).drop s.toNat

/-- `argStrings[i]` (the in-range case; out of range gives the JavaScript
undefined, rendered as the empty string, which no call site reaches). -/
def jsGetStr (l : List String) (i : Nat) : String :=
  (l.get? i).getD ""

/-- Lookup in the option-tuple map; a NaN key finds nothing, like the
JavaScript property access `optionStringIndices[NaN]`. -/
def lookupIdx (m : List (Nat × OptionTuple)) : JIdx → Option OptionTuple
  | .nan => none
  | .idx n => (m.find? (fun p => p.1 = n)).map (·.2)

/-- State threaded through `_parseKnownArgs`: the namespace, the extras
list, the seen-action and seen-non-default lists (action identities), and
the queue of positionals still to be parsed. -/
structure ParseState where
  ns : NS
  extras : List String
  seenActions : List Nat
  seenNonDefault : List Nat
  positionals : List JAction

/-- Decidable projection of the parse state (the positional queue collapsed
to action identities). -/
def stateView (st : ParseState) : NS × List String × List Nat × List Nat × List Nat :=
  (st.ns, st.extras, st.seenActions, st.seenNonDefault, st.positionals.map (·.id))

/-- JavaScript `indexOf` on the seen lists (action identity). -/
def jsIndexOf (l : List Nat) (x : Nat) : Int :=
  match l.indexOf? x with
  | some i => (i : Int)
  | none => -1

/-- Embedding of the local `takeAction` of `_parseKnownArgs`: record the
action as seen, compute its values, record it as seen-with-non-default
(the source compares against `action.default`, a property the action
object does not define, so the comparison is against undefined), consult
the conflict map (the `indexOf > 0` test is the source's), and fire the
action's call unless the values are the SUPPRESS sentinel. -/
def takeAction (conflicts : List (Nat × List Nat)) (st : ParseState)
    (a : JAction) (args : List String) (optionString : Option String) :
    Except ParseErr ParseState := do
  let st := { st with seenActions := st.seenActions ++ [a.id] }
  let argumentValues ← getValues a args
  let st ←
    if argumentValues ≠ .scalar .undef then
      let st := { st with seenNonDefault := st.seenNonDefault ++ [a.id] }
      match (conflicts.find? (fun p => p.1 = a.id)).map (·.2) with
      | none => pure st
      | some cl =>
          match cl.find? (fun c => jsIndexOf st.seenNonDefault c > 0) with
          | some c => .error (.conflictErr a.id c)
          | none => pure st
    else pure st
  if argumentValues ≠ suppressVal then
    pure { st with ns := a.callF st.ns argumentValues optionString }
  else
    pure st

/-- Run `takeAction` over the accumulated action tuples of
`consumeOptional`. -/
def takeActions (conflicts : List (Nat × List Nat)) :
    ParseState → List (JAction × List String × String) → Except ParseErr ParseState
  | st, [] => .ok st
  | st, (a, args, os) :: rest => do
      let st' ← takeAction conflicts st a args (some os)
      takeActions conflicts st' rest

/-- Result of the inner while loop of `consumeOptional`: either the
null-action path (push the raw token to extras, stop after one token) or
the accumulated action tuples with the stop index. -/
inductive COOut where
  | pushExtra
  | tuples (ts : List (JAction × List String × String)) (stop : Nat)

/-- JavaScript truthiness of the explicit argument (`!!explicitArg`): both
absent and the empty string are falsy. -/
def eaTruthy : Option String → Bool
  | none => false
  | some s => s ≠ ""

/-- One-character string at index `i`, JavaScript `s[i]` used in string
concatenation (call sites only reach in-range indices). -/
def jsCharStr (s : String) (i : Nat) : String :=
  ⟨(s.toList.drop i).take 1⟩

/-- The while loop of `consumeOptional` (lines 384-444): on a null action,
push to extras; with a truthy explicit argument, match the action against
the one-character window `A`; a zero-count single-dash option is clustered
(its tuple recorded with no arguments, the next derived flag looked up
from the first option character plus the first explicit-argument
character, the remaining explicit argument re-attached or null when
empty); a one-count match ends the loop consuming just the option token,
anything else is the ignored-explicit-argument error; with no explicit
argument, the action's grammar is matched against the pattern window after
the option and the matched slice of raw tokens recorded.  The fuel is
spent only by the clustering step, which shortens the explicit argument
each time. -/
def consumeOptionalGo (S : Schema) (pattern : List PChar) (argStrings : List String)
    (startIndex : Nat) :
    Nat → Option JAction → String → Option String →
    List (JAction × List String × String) → Except ParseErr COOut
  | 0, _, _, _, _ => .error (.internalErr "out of fuel")
  | _ + 1, none, _, _, _ => .ok .pushExtra
  | fuel + 1, some action, optionString, explicitArg, actionTuples =>
      if eaTruthy explicitArg then do
        let ea := explicitArg.getD ""
        let argCount ← matchArgument action [.A]
        if argCount = 0 && !prefixCharAt S optionString 1 then
          let actionTuples := actionTuples ++ [(action, ([] : List String), optionString)]
          let optionString' := jsCharStr optionString 0 ++ jsCharStr ea 0
          let newExplicitArg := if jsDrop ea 1 = "" then none else some (jsDrop ea 1)
          match lookupOptAct S optionString' with
          | some action' =>
              consumeOptionalGo S pattern argStrings startIndex fuel
                (some action') optionString' newExplicitArg actionTuples
          | none => .error (.ignoredExplicitArg action.id)
        else if argCount = 1 then
          .ok (.tuples (actionTuples ++ [(action, [ea], optionString)]) (startIndex + 1))
        else
          .error (.ignoredExplicitArg action.id)
      else do
        let start := startIndex + 1
        let selectedPatterns := pattern.drop start
        let argCount ← matchArgument action selectedPatterns
        let stop := start + argCount
        let args := (argStrings.take stop).drop start
        .ok (.tuples (actionTuples ++ [(action, args, optionString)]) stop)

/-- Fuel sufficient for `consumeOptionalGo`: the clustering loop shortens
the explicit argument by one character per iteration. -/
def coFuel (ea : Option String) : Nat :=
  (match ea with | some s => s.length | none => 0) + 2

/-- Embedding of `consumeOptional` (lines 371-455): fetch the tuple at the
start index, run the while loop, then either push the unmatched
option-shaped token to extras and advance one token, or fire every
accumulated action tuple and return the stop index. -/
def consumeOptional (S : Schema) (pattern : List PChar) (argStrings : List String)
    (m : List (Nat × OptionTuple)) (conflicts : List (Nat × List Nat))
    (st : ParseState) (startIndex : Nat) : Except ParseErr (ParseState × Nat) := do
  match lookupIdx m (.idx startIndex) with
  | none => .error (.internalErr "TypeError: no option tuple")
  | some t => do
      let out ← consumeOptionalGo S pattern argStrings startIndex
        (coFuel t.explicitArg) t.action t.optionString t.explicitArg []
      match out with
      | .pushExtra =>
          .ok ({ st with extras := st.extras ++ [jsGetStr argStrings startIndex] }, startIndex + 1)
      | .tuples ts stop =>
          if ts.length < 1 then .error (.internalErr "length should be > 0")
          else do
            let st' ← takeActions conflicts st ts
            .ok (st', stop)

/-- The `forEach` over the underscore zip of positionals and counts in
`consumePositionals`: underscore's zip pads to the longer list, so every
queued positional is visited, those beyond the matched counts with an
undefined count, which slices an empty argument list and turns the scan
index into NaN. -/
def consumePosGo (conflicts : List (Nat × List Nat)) (argStrings : List String) :
    List (JAction × Option Nat) → ParseState → JIdx → Except ParseErr (ParseState × JIdx)
  | [], st, si => .ok (st, si)
  | (action, argCount) :: rest, st, si => do
      let args := jsSlice argStrings si (jAdd si argCount)
      let si' := jAdd si argCount
      let st' ← takeAction conflicts st action args none
      consumePosGo conflicts argStrings rest st' si'

/-- Embedding of `consumePositionals` (lines 461-483): match the queued
positionals against the pattern window from the scan index, visit the
zip-padded pairs firing each action on its token slice, then drop the
matched prefix of the queue and return the final scan index. -/
def consumePositionals (_S : Schema) (pattern : List PChar) (argStrings : List String)
    (conflicts : List (Nat × List Nat)) (st : ParseState) (startIndex : JIdx) :
    Except ParseErr (ParseState × JIdx) := do
  let selectedPattern := pattern.drop startIndex.toNat
  let argCounts := matchArgumentsPartial st.positionals selectedPattern
  let (st1, si1) ←
    if argCounts.length > 0 then
      consumePosGo conflicts argStrings
        (st.positionals.enum.map (fun p => (p.2, argCounts.get? p.1))) st startIndex
    else
      .ok (st, startIndex)
  .ok ({ st1 with positionals := st1.positionals.drop argCounts.length }, si1)

/-- Minimum option-tuple index at or after the scan index
(`nextOptionStringIndex`, lines 501-512). -/
def nextOptionIndex (m : List (Nat × OptionTuple)) (startIndex : Nat) : Option Nat :=
  m.foldl (fun acc p =>
    if p.1 ≥ startIndex then
      match acc with
      | none => some p.1
      | some c => some (min c p.1)
    else acc) none

/-- The gap-and-option tail of one while-loop iteration (lines 527-535):
when the scan index is not an option index, the tokens up to the next
option index go to extras (a NaN scan index slices from 0, the JavaScript
coercion) and the scan index jumps to the next option index; then the
option there is consumed. -/
def gapAndOption (S : Schema) (pattern : List PChar) (argStrings : List String)
    (m : List (Nat × OptionTuple)) (conflicts : List (Nat × List Nat))
    (st : ParseState) (si : JIdx) (nextOpt : Option Nat) :
    Except ParseErr (ParseState × JIdx) := do
  match lookupIdx m si with
  | some _ =>
      match si with
      | .idx k => do
          let (st', stop) ← consumeOptional S pattern argStrings m conflicts st k
          .ok (st', .idx stop)
      | .nan => .error (.internalErr "unreachable")
  | none =>
      let strs := jsSlice argStrings si (.idx ((nextOpt).getD 0))
      let st := { st with extras := st.extras ++ strs }
      match nextOpt with
      | some k => do
          let (st', stop) ← consumeOptional S pattern argStrings m conflicts st k
          .ok (st', .idx stop)
      | none => .error (.internalErr "TypeError: null start index")

/-- One iteration of the while loop of `_parseKnownArgs` (lines 499-536),
entered with a numeric scan index within the option range: consume
positionals up to the next option index; on progress re-check the loop
condition, otherwise fall through to the gap-and-option tail. -/
def parseStep (S : Schema) (pattern : List PChar) (argStrings : List String)
    (m : List (Nat × OptionTuple)) (conflicts : List (Nat × List Nat))
    (st : ParseState) (n : Nat) : Except ParseErr (ParseState × JIdx) := do
  let nextOpt := nextOptionIndex m n
  if some n ≠ nextOpt then do
    let (st1, pEnd) ← consumePositionals S pattern argStrings conflicts st (.idx n)
    if jGt pEnd n then
      .ok (st1, pEnd)
    else
      gapAndOption S pattern argStrings m conflicts st1 pEnd nextOpt
  else
    gapAndOption S pattern argStrings m conflicts st (.idx n) nextOpt

/-- The while loop of `_parseKnownArgs`: run `parseStep` while the scan
index is at most the largest option index (a NaN index compares false and
exits, as in JavaScript). -/
def parseLoop (S : Schema) (pattern : List PChar) (argStrings : List String)
    (m : List (Nat × OptionTuple)) (maxOpt : Int) (conflicts : List (Nat × List Nat)) :
    Nat → ParseState → JIdx → Except ParseErr (ParseState × JIdx)
  | 0, _, _ => .error (.internalErr "out of fuel")
  | fuel + 1, st, si =>
      match si with
      | .nan => .ok (st, si)
      | .idx n =>
          if (n : Int) ≤ maxOpt then do
            let (st', si') ← parseStep S pattern argStrings m conflicts st n
            parseLoop S pattern argStrings m maxOpt conflicts fuel st' si'
          else .ok (st, si)

/-- The required-action sweep after the loop (lines 551-557): the first
required action whose identity never entered the seen list raises. -/
def checkRequired (seen : List Nat) : List JAction → Except ParseErr Unit
  | [] => .ok ()
  | a :: rest =>
      if a.required && !seen.contains a.id then .error (.missingRequired a.id)
      else checkRequired seen rest

/-- Embedding of `_parseKnownArgs` returning the full final state: build
the (empty — the source's mutually-exclusive bookkeeping is a ToDo) action
conflict map, classify the tokens, run the alternating loop, consume the
trailing positionals, push the unconsumed tail to extras, and run the
too-few-arguments and required checks. -/
def parseKnownArgsState (S : Schema) (argStrings : List String) (ns0 : NS) :
    Except ParseErr ParseState := do
  let conflicts : List (Nat × List Nat) := []
  let (pattern, m) ← classify S argStrings
  let maxOpt : Int := m.foldl (fun acc p => max acc (p.1 : Int)) (-1)
  let st0 : ParseState :=
    { ns := ns0, extras := [], seenActions := [], seenNonDefault := [],
      positionals := S.actions.filter (·.isPositional) }
  let (st1, si1) ← parseLoop S pattern argStrings m maxOpt conflicts
    (argStrings.length + 2) st0 (.idx 0)
  let (st2, stopIndex) ← consumePositionals S pattern argStrings conflicts st1 si1
  let st3 := { st2 with extras := st2.extras ++ argStrings.drop stopIndex.toNat }
  if st3.positionals.length > 0 then .error .tooFewArguments
  else do
    checkRequired st3.seenActions S.actions
    .ok st3

/-- Embedding of `_parseKnownArgs` as the source returns it: the updated
namespace and the extra arguments. -/
def parseKnownArgs (S : Schema) (argStrings : List String) (ns0 : NS) :
    Except ParseErr (NS × List String) :=
  (parseKnownArgsState S argStrings ns0).map (fun st => (st.ns, st.extras))

/-- The initial parse state of `_parseKnownArgs`. -/
def initState (S : Schema) (ns0 : NS) : ParseState :=
  { ns := ns0, extras := [], seenActions := [], seenNonDefault := [],
    positionals := S.actions.filter (·.isPositional) }

/-- Whether an error is the mutually-exclusive conflict error. -/
def ParseErr.isConflict : ParseErr → Bool
  | .conflictErr _ _ => true
  | _ => false

/-- A parse result that is not the mutually-exclusive conflict error. -/
def resultNoConflict : Except ParseErr α → Prop
  | .error e => e.isConflict = false
  | .ok _ => True

/-- A value that does not contain the separator string: a scalar other
than the string consisting of two dashes, or a list without it. -/
def noSeparatorVal : JVal → Prop
  | .scalar s => s ≠ .str "--"
  | .list xs => JScalar.str "--" ∉ xs

/-- The identity converter the repository registers for the default and
string types. -/
def idConv : String → Option JScalar := fun s => some (.str s)

/-- Modelled from the spec: the call method of a store action writes the
fired value to its destination. -/
def storeCall (d : String) : NS → JVal → Option String → NS :=
  fun ns v _ => nsSet ns d v

/-- Modelled from the spec: the call method of a boolean flag writes its
constant to its destination. -/
def storeTrueCall (d : String) : NS → JVal → Option String → NS :=
  fun ns _ _ => nsSet ns d (.scalar (.bool true))

/-- A zero-arity boolean flag. -/
def flagAct (i : Nat) (os d : String) : JAction :=
  { id := i, optionStrings := [os], dest := d, nargs := .num 0, typeF := idConv,
    constant := .scalar (.bool true), callF := storeTrueCall d }

/-- A single-argument option. -/
def optAct (i : Nat) (os d : String) : JAction :=
  { id := i, optionStrings := [os], dest := d, nargs := .dflt, typeF := idConv,
    callF := storeCall d }

/-- A single-argument positional. -/
def posAct (i : Nat) (d : String) : JAction :=
  { id := i, optionStrings := [], dest := d, nargs := .dflt, typeF := idConv,
    callF := storeCall d }

/-- A schema whose option-string lookup is built from the actions'
declared option strings, in declaration order. -/
def mkSchema (as : List JAction) : Schema :=
  { actions := as,
    optionStringActions := (as.map (fun a => a.optionStrings.map (fun os => (os, a)))).flatten }

/-- Schema with the single flag `-x`. -/
def schemaC1 : Schema := mkSchema [flagAct 0 "-x" "x"]

/-- A default-arity (one argument) option used on an arity-matcher
window. -/
def actC2 : JAction := optAct 0 "-f" "f"

/-- Schema with the single option `--color`. -/
def schemaC3 : Schema := mkSchema [optAct 0 "--color" "color"]

/-- Schema with the flag `-x` and the option `-xyz`. -/
def schemaC4x : Schema := mkSchema [flagAct 0 "-x" "x", optAct 1 "-xyz" "xyz"]

/-- Schema with the options `--foo` and `--foobar`. -/
def schemaC4f : Schema := mkSchema [optAct 0 "--foo" "foo", optAct 1 "--foobar" "foobar"]

/-- Schema with two single-argument positionals. -/
def schemaC5 : Schema := mkSchema [posAct 10 "p1", posAct 11 "p2"]

/-- A REMAINDER action with a declared choice set. -/
def actC6 : JAction :=
  { id := 60, optionStrings := [], dest := "r", nargs := .remainder, typeF := idConv,
    choices := some [.scalar (.str "ok")], callF := storeCall "r" }

/-- Schema with the three zero-arity flags `-a`, `-b`, `-c`. -/
def schema7 : Schema :=
  mkSchema [flagAct 0 "-a" "a", flagAct 1 "-b" "b", flagAct 2 "-c" "c"]

/-- A ONE_OR_MORE positional used to exercise the separator filtering. -/
def actC10 : JAction :=
  { id := 70, optionStrings := [], dest := "w", nargs := .oneOrMore, typeF := idConv,
    callF := storeCall "w" }

/-- C1: the claim states that the pattern string always has one character
per input token, that every option-tuple index is an `O` position, and
that a literal `--` yields one `-` plus one `A` per later token with
nothing further emitted for them.  On the input `["--", "-x"]` against a
schema declaring `-x`, the classifier emits four characters for two
tokens: the `--` contributes `-` and then one `A` for every index from
its own onwards, and the `forEach` then processes `-x` again, storing an
option tuple at index 1 even though pattern position 1 is `A`. -/
theorem c1_separator_miscount :
    (classify schemaC1 ["--", "-x"]).map
        (fun r => (r.1, r.2.map (fun p => (p.1, tupleView p.2))))
      = .ok ([PChar.D, PChar.A, PChar.A, PChar.O], [(1, (some 0, "-x", none))])
    ∧ (classify schemaC1 ["--", "-x"]).map
        (fun r => decide (r.1.length = (["--", "-x"] : List String).length))
      = .ok false := by
  constructor <;> rfl

/-- C2: the claim states that the arity matcher is anchored at the start
of the window and that a window whose first characters do not fit the
grammar is a no-match.  The source builds its regular expression without
an anchor and uses the searching `String.prototype.match`: a default-arity
option matched against the window `OA` succeeds with count 1 (the `A`
found at position 1), although the anchored grammar has no match at the
window start. -/
theorem c2_unanchored_search :
    matchArgument actC2 [PChar.O, PChar.A] = .ok 1
    ∧ groupsMatch [getNargsPattern actC2] [PChar.O, PChar.A] = none := by
  constructor <;> rfl

/-- C3: the claim states that a double-prefix token with `=` and a unique
prefix match before the `=` resolves with the portion after the `=` as
explicit argument.  The source computes that portion with
`split('=', 1)`, which in JavaScript keeps only the first segment, so the
explicit argument is undefined: `--col=red` against `--color` resolves to
the option but drops `red`. -/
theorem c3_explicit_arg_dropped :
    (schemaC3.optionStringActions.filter (fun p => jsStartsWith p.1 "--col")).length = 1
    ∧ (parseOptional schemaC3 "--col=red").map (Option.map tupleView)
        = .ok (some (some 0, "--color", none)) := by
  constructor <;> rfl

/-- C5: the claim states that only the first k matched positionals consume
tokens and the positionals beyond k remain queued for the next run.  With
the queue `[p1, p2]` (each one argument) and the window `A`, the matcher
matches k = 1; underscore zip then pads the pairs to the queue length, so
the source also fires `p2` with an undefined count — an empty token slice
— and the scan index becomes NaN, while `p2` additionally stays in the
queue. -/
theorem c5_zip_padding_overfires :
    matchArgumentsPartial (initState schemaC5 []).positionals [PChar.A] = [1]
    ∧ (consumePositionals schemaC5 [PChar.A] ["x"] [] (initState schemaC5 []) (.idx 0)).map
          (fun r => (stateView r.1, r.2))
        = .ok (([("p1", .scalar (.str "x")), ("p2", .list [])], [], [10, 11], [10, 11], [11]),
            .nan) := by
  constructor <;> rfl

/-- C6 counterexample: the claim states that a REMAINDER action
choice-checks the first converted value.  The REMAINDER branch of
`_getValues` converts all values and checks none: with choices `{ok}`,
the tokens `bad x` are accepted although the check on the first value
alone rejects it. -/
theorem c6_counterexample :
    getValues actC6 ["bad", "x"] = .ok (.list [.str "bad", .str "x"])
    ∧ checkValue actC6 (.scalar (.str "bad"))
        = .error (.invalidChoice 60 (.scalar (.str "bad"))) := by
  constructor <;> rfl

/-- C7: parsing the single clustered token `-abc` against the three
zero-arity flags `-a`, `-b`, `-c` produces the same final parse state as
parsing the three separate tokens, all three actions fire (in the same
order, with the same empty argument slices), the namespace holds all
three destinations, and nothing lands in extras. -/
theorem c7_cluster_equiv :
    (parseKnownArgsState schema7 ["-abc"] []).map stateView
        = (parseKnownArgsState schema7 ["-a", "-b", "-c"] []).map stateView
    ∧ (parseKnownArgsState schema7 ["-abc"] []).map stateView
        = .ok ([("a", .scalar (.bool true)), ("b", .scalar (.bool true)),
                ("c", .scalar (.bool true))], [], [0, 1, 2], [0, 1, 2], []) := by
  constructor <;> rfl

/-- C4 counterexample: the claim states that a token equal to a prefix P
matched by exactly one declared option string resolves to that option.
With the flag `-x` and the option `-xyz`, exactly one declared option
string starts with `-xy`, yet the token `-xy` is fatal: the single-prefix
candidate collection also admits the two-character flag `-x` with `y` as
clustered argument, so two candidates exist and the ambiguous-option
error is raised listing both. -/
theorem c4_counterexample :
    (schemaC4x.optionStringActions.filter (fun p => jsStartsWith p.1 "-xy")).length = 1
    ∧ parseOptional schemaC4x "-xy" = .error (.ambiguousOption "-xy" ["-x", "-xyz"]) := by
  constructor <;> rfl

/-- Reduction of an Except bind on a success. -/
theorem exceptOkBind (a : α) (f : α → Except ε β) : (Except.ok a >>= f) = f a := rfl

/-- Reduction of an Except bind on an error. -/
theorem exceptErrBind (e : ε) (f : α → Except ε β) :
    (Except.error e >>= f : Except ε β) = Except.error e := rfl

/-- C4 amended: for a token that is not itself a declared option string
(and is prefix-shaped, longer than one character, without `=`), the
resolution is governed by the candidate set of `_getOptionTuples` — the
declared option strings starting with the token, plus, for a single-prefix
token, the option equal to its first two characters taken with the rest as
clustered argument: exactly one candidate resolves the token to it, two or
more candidates raise the fatal ambiguous-option error listing every
candidate's option string, with no retry. -/
theorem c4_amended (S : Schema) (tok : String) (L : List OptionTuple)
    (h1 : tok ≠ "")
    (h2 : prefixCharAt S tok 0 = true)
    (h3 : lookupOptAct S tok = none)
    (h4 : tok.length ≠ 1)
    (h5 : jsContainsChar tok '=' = false)
    (h6 : getOptionTuples S tok = .ok L) :
    (∀ t, L = [t] → parseOptional S tok = .ok (some t))
    ∧ (L.length > 1 →
        parseOptional S tok = .error (.ambiguousOption tok (L.map (·.optionString)))) := by
  constructor
  · intro t ht
    subst ht
    simp [parseOptional, h1, h2, h3, h4, h5, h6, exceptOkBind]
  · intro hl
    simp [parseOptional, h1, h2, h3, h4, h5, h6, exceptOkBind, hl]

/-- Witness for the amended C4 at a concrete schema: with options
`--foo` and `--foobar`, the token `--f` has both as candidates and
raises the ambiguous-option error listing them. -/
theorem c4_witness :
    getOptionTuples schemaC4f "--f"
        = .ok [⟨some (optAct 0 "--foo" "foo"), "--foo", none⟩,
               ⟨some (optAct 1 "--foobar" "foobar"), "--foobar", none⟩]
    ∧ parseOptional schemaC4f "--f"
        = .error (.ambiguousOption "--f" ["--foo", "--foobar"]) := by
  refine ⟨rfl, ?_⟩
  exact (c4_amended schemaC4f "--f"
    [⟨some (optAct 0 "--foo" "foo"), "--foo", none⟩,
     ⟨some (optAct 1 "--foobar" "foobar"), "--foobar", none⟩]
    (by decide) (by rfl) (by rfl) (by decide) (by rfl) (by rfl)).2 (by decide)

/-- An Except bind followed by a pure result is a map. -/
theorem exceptBindPure (x : Except ε α) (f : α → β) :
    (x >>= fun a => Except.ok (f a)) = f <$> x := by
  cases x <;> rfl

/-- C6 amended: a REMAINDER action converts every matched token and
choice-checks none of the resulting values; a ParserHandoff (PARSER)
action converts every token and choice-checks only the first resulting
value (the element at index 0, undefined when the slice is empty). -/
theorem c6_amended (a : JAction) (args : List String) :
    (a.nargs = .remainder →
      getValues a args = (mapGetValues a args).map JVal.list)
    ∧ (a.nargs = .parserCmd →
      getValues a args = do
        let vs ← mapGetValues a args
        checkValue a (.scalar (vs.headD .undef))
        pure (JVal.list vs)) := by
  constructor
  · intro h
    cases hm : mapGetValues a args <;>
      simp [getValues, getValuesCore, h, Nargs.isFalsy, hm, exceptOkBind, exceptErrBind, Except.map]
  · intro h
    cases hm : mapGetValues a args <;>
      simp [getValues, getValuesCore, h, Nargs.isFalsy, hm, exceptOkBind, exceptErrBind, exceptBindPure]

/-- Witness for the amended C6: the concrete REMAINDER action with
choices `{ok}` converts the tokens `bad x` without any choice check. -/
theorem c6_witness :
    actC6.nargs = .remainder
    ∧ getValues actC6 ["bad", "x"] = (mapGetValues actC6 ["bad", "x"]).map JVal.list := ⟨rfl, (c6_amended actC6 ["bad", "x"]).1 rfl⟩

/-- C8: unrecognized input never raises.  First part: consuming the option
at an index whose tuple has a null action (an option-shaped token that
matched nothing) appends that raw token to extras and advances the scan
index by one, with no error.  Second part: in the gap tail of a loop
iteration, when the scan index holds no option tuple, the raw tokens up to
the next option index are appended to extras in input order and the parse
continues by consuming the option there. -/
theorem c8_unrecognized_to_extras :
    (∀ (S : Schema) (pattern : List PChar) (argStrings : List String)
        (m : List (Nat × OptionTuple)) (conflicts : List (Nat × List Nat))
        (st : ParseState) (k : Nat) (t : OptionTuple),
      lookupIdx m (.idx k) = some t → t.action = none →
      consumeOptional S pattern argStrings m conflicts st k
        = .ok ({ st with extras := st.extras ++ [jsGetStr argStrings k] }, k + 1))
    ∧ (∀ (S : Schema) (pattern : List PChar) (argStrings : List String)
        (m : List (Nat × OptionTuple)) (conflicts : List (Nat × List Nat))
        (st : ParseState) (n j : Nat),
      lookupIdx m (.idx n) = none → nextOptionIndex m n = some j →
      gapAndOption S pattern argStrings m conflicts st (.idx n) (nextOptionIndex m n)
        = (do
            let r ← consumeOptional S pattern argStrings m conflicts
              { st with extras := st.extras ++ jsSlice argStrings (.idx n) (.idx j) } j
            pure (r.1, JIdx.idx r.2))) := by
  constructor
  · intro S pattern argStrings m conflicts st k t h1 h2
    simp [consumeOptional, h1, h2, coFuel, consumeOptionalGo, exceptOkBind]
  · intro S pattern argStrings m conflicts st n j h1 h2
    simp [gapAndOption, h1, h2, exceptOkBind, exceptBindPure]

/-- Witness for C8 at concrete inputs: the unmatched option-shaped token
`-z` goes to extras with the scan index advancing one, and a gap token at
index 0 before the option index 1 goes to extras before the option there
is consumed. -/
theorem c8_witness :
    (lookupIdx [(0, (⟨none, "-z", none⟩ : OptionTuple))] (.idx 0)
        = some (⟨none, "-z", none⟩ : OptionTuple))
    ∧ consumeOptional schemaC1 [PChar.O] ["-z"] [(0, ⟨none, "-z", none⟩)] []
        (initState schemaC1 []) 0
      = .ok ({ initState schemaC1 [] with extras := [] ++ ["-z"] }, 1)
    ∧ nextOptionIndex [(1, (⟨none, "-z", none⟩ : OptionTuple))] 0 = some 1
    ∧ gapAndOption schemaC1 [PChar.A, PChar.O] ["gap", "-z"]
        [(1, ⟨none, "-z", none⟩)] [] (initState schemaC1 []) (.idx 0)
        (nextOptionIndex [(1, (⟨none, "-z", none⟩ : OptionTuple))] 0)
      = (do
          let r ← consumeOptional schemaC1 [PChar.A, PChar.O] ["gap", "-z"]
            [(1, ⟨none, "-z", none⟩)] []
            { initState schemaC1 [] with
                extras := [] ++ jsSlice ["gap", "-z"] (.idx 0) (.idx 1) } 1
          pure (r.1, JIdx.idx r.2)) := by
  refine ⟨rfl, ?_, rfl, ?_⟩
  · exact (c8_unrecognized_to_extras).1 schemaC1 [PChar.O] ["-z"]
      [(0, ⟨none, "-z", none⟩)] [] (initState schemaC1 []) 0 ⟨none, "-z", none⟩ rfl rfl
  · exact (c8_unrecognized_to_extras).2 schemaC1 [PChar.A, PChar.O] ["gap", "-z"]
      [(1, ⟨none, "-z", none⟩)] [] (initState schemaC1 []) 0 1 rfl rfl

/-- Filtering the separator out twice is the same as once. -/
theorem filterSepIdem (l : List String) :
    (l.filter (fun x => x ≠ "--")).filter (fun x => x ≠ "--")
      = l.filter (fun x => x ≠ "--") := by
  induction l with
  | nil => rfl
  | cons x xs ih => by_cases hx : x = "--" <;> simp [hx, ih]

/-- With the identity converter, converting a token list succeeds with the
tokens as string scalars. -/
theorem mapGetValuesId (a : JAction) (hid : a.typeF = idConv) (l : List String) :
    mapGetValues a l = .ok (l.map JScalar.str) := by
  induction l with
  | nil => rfl
  | cons x xs ih => simp [mapGetValues, getValue, hid, idConv, ih, exceptOkBind]

/-- A checked pass-through value: the body of the zero-or-more branch. -/
theorem checkThenOkEq (a : JAction) (val v : JVal)
    (hv : (do checkValue a val; Except.ok val) = Except.ok v) : v = val := by
  cases hck : checkValue a val <;> rw [hck] at hv
  · exact absurd hv (by simp [exceptErrBind])
  · simpa [exceptOkBind] using hv.symm

/-- A converted and checked token with the identity converter. -/
theorem convertCheckOkEq (a : JAction) (s : String) (v : JVal) (hid : a.typeF = idConv)
    (hv : (do
        let u ← getValue a s
        checkValue a (.scalar u)
        Except.ok (JVal.scalar u)) = Except.ok v) : v = .scalar (.str s) := by
  have hg : getValue a s = .ok (.str s) := by simp [getValue, hid, idConv]
  rw [hg, exceptOkBind] at hv
  exact checkThenOkEq a (.scalar (.str s)) v hv

/-- Branch analysis of `getValuesCore` on a token list without the
separator: with the identity converter, a separator-free constant and
default, and an arity that is neither REMAINDER nor PARSER, every
successful value is separator-free. -/
theorem coreNoSep (a : JAction) (l : List String)
    (hR : a.nargs ≠ .remainder) (hP : a.nargs ≠ .parserCmd)
    (hid : a.typeF = idConv)
    (hc : noSeparatorVal a.constant) (hd : noSeparatorVal a.defaultValue)
    (hl : ∀ x ∈ l, x ≠ "--") :
    ∀ v, getValuesCore a l = .ok v → noSeparatorVal v := by
  intro v hv
  rw [getValuesCore] at hv
  split at hv
  · -- empty plus OPTIONAL: constant or default, converted when a string
    have hval : noSeparatorVal (if a.isOptional then a.constant else a.defaultValue) := by
      split <;> assumption
    revert hv hval
    generalize (if a.isOptional then a.constant else a.defaultValue) = value
    intro hv hval
    match value, hv with
    | .scalar (.str s), hv =>
        rw [convertCheckOkEq a s v hid hv]
        exact hval
    | .scalar .undef, hv => cases hv; exact hval
    | .scalar .null, hv => cases hv; exact hval
    | .scalar (.num n), hv => cases hv; exact hval
    | .scalar (.bool b), hv => cases hv; exact hval
    | .list xs, hv => cases hv; exact hval
  · split at hv
    · -- empty plus ZERO_OR_MORE on an optional: default or empty array
      have hval : noSeparatorVal
          (if a.defaultValue.isTruthy then a.defaultValue else .list []) := by
        split
        · exact hd
        · simp [noSeparatorVal]
      rw [checkThenOkEq a _ v hv]
      exact hval
    · split at hv
      · -- single token: convert and check that token
        rename_i hcond
        simp only [Bool.and_eq_true, decide_eq_true_eq] at hcond
        obtain ⟨x, hx⟩ : ∃ x, l = [x] := by
          cases l with
          | nil => simp at hcond
          | cons y ys =>
              cases ys with
              | nil => exact ⟨y, rfl⟩
              | cons z zs => simp at hcond
        subst hx
        have hxne : x ≠ "--" := hl x (by simp)
        rw [convertCheckOkEq a x v hid hv]
        simpa [noSeparatorVal] using hxne
      · -- the remaining arities (the split discharges the REMAINDER and
        -- PARSER cases against the hypotheses): convert all, check each
        rw [mapGetValuesId a hid l, exceptOkBind] at hv
        revert hv
        cases hck : checkValues a (l.map JScalar.str) <;>
          simp [exceptOkBind, exceptErrBind]
        intro hv
        subst hv
        simp only [noSeparatorVal, List.mem_map]
        rintro ⟨x, hxl, hxeq⟩
        exact hl x hxl (by injection hxeq)
/-- C10: for every action whose arity is neither REMAINDER nor PARSER, the
literal `--` tokens are removed from the matched slice before value
conversion — the computed value depends only on the filtered slice, and
with the identity converter (and separator-free constant and default)
every successful value is separator-free; for REMAINDER and PARSER the
tokens are kept: every token of the unfiltered slice, `--` included, is
converted. -/
theorem c10_separator_stripping (a : JAction) (args : List String) :
    (a.nargs ≠ .remainder → a.nargs ≠ .parserCmd →
      getValues a args = getValues a (args.filter (fun x => x ≠ "--")))
    ∧ (a.nargs = .remainder →
      getValues a args = (mapGetValues a args).map JVal.list)
    ∧ (a.nargs = .parserCmd →
      getValues a args = do
        let vs ← mapGetValues a args
        checkValue a (.scalar (vs.headD .undef))
        pure (JVal.list vs))
    ∧ (a.nargs ≠ .remainder → a.nargs ≠ .parserCmd → a.typeF = idConv →
        noSeparatorVal a.constant → noSeparatorVal a.defaultValue →
        ∀ v, getValues a args = .ok v → noSeparatorVal v) := by
  refine ⟨?_, ?_, ?_, ?_⟩
  · intro hR hP
    simp [getValues, hR, hP, filterSepIdem]
  · intro h
    cases hm : mapGetValues a args <;>
      simp [getValues, getValuesCore, h, Nargs.isFalsy, hm, exceptOkBind, exceptErrBind,
        Except.map]
  · intro h
    cases hm : mapGetValues a args <;>
      simp [getValues, getValuesCore, h, Nargs.isFalsy, hm, exceptOkBind, exceptErrBind,
        exceptBindPure]
  · intro hR hP hid hc hd v hv
    rw [getValues] at hv
    have hguard : (a.nargs ≠ .parserCmd && a.nargs ≠ .remainder) = true := by
      simp [hR, hP]
    rw [if_pos hguard] at hv
    exact coreNoSep a (args.filter (fun x => x ≠ "--")) hR hP hid hc hd
      (fun x hx => of_decide_eq_true (List.mem_filter.mp hx).2) v hv

/-- Witness for C10 at a concrete ONE_OR_MORE action with the identity
converter on the slice `x -- y`: the separator is stripped before
conversion, the value equals the value of the filtered slice and is
separator-free. -/
theorem c10_witness :
    getValues actC10 ["x", "--", "y"] = getValues actC10 ["x", "y"]
    ∧ getValues actC10 ["x", "--", "y"] = .ok (.list [.str "x", .str "y"])
    ∧ noSeparatorVal (.list [.str "x", .str "y"]) := by
  refine ⟨?_, ?_, ?_⟩
  · have h := (c10_separator_stripping actC10 ["x", "--", "y"]).1 (by decide) (by decide)
    simpa using h
  · rfl
  · have h := (c10_separator_stripping actC10 ["x", "--", "y"]).2.2.2
      (by decide) (by decide) rfl (by simp [actC10, noSeparatorVal])
      (by simp [actC10, noSeparatorVal]) (.list [.str "x", .str "y"]) rfl
    exact h

/-- Success results are never the conflict error. -/
theorem rncOk (v : α) : resultNoConflict (Except.ok v : Except ParseErr α) := by
  simp [resultNoConflict]

/-- Binds preserve conflict-freedom. -/
theorem rncBind {x : Except ParseErr α} {f : α → Except ParseErr β}
    (hx : resultNoConflict x) (hf : ∀ b, resultNoConflict (f b)) :
    resultNoConflict (x >>= f) := by
  cases x
  · exact hx
  · exact hf _

/-- The converter wrapper only raises the invalid-value error. -/
theorem rncGetValue (a : JAction) (s : String) : resultNoConflict (getValue a s) := by
  unfold getValue
  split <;> simp [resultNoConflict, ParseErr.isConflict]

/-- The choice check only raises the invalid-choice error. -/
theorem rncCheckValue (a : JAction) (v : JVal) : resultNoConflict (checkValue a v) := by
  unfold checkValue
  split
  · exact rncOk _
  · split <;> simp [resultNoConflict, ParseErr.isConflict]

/-- Converting a token list never raises the conflict error. -/
theorem rncMapGetValues (a : JAction) (l : List String) :
    resultNoConflict (mapGetValues a l) := by
  induction l with
  | nil => exact rncOk _
  | cons x xs ih =>
      exact rncBind (rncGetValue a x) (fun v => rncBind ih (fun vs => rncOk _))

/-- Checking a value list never raises the conflict error. -/
theorem rncCheckValues (a : JAction) (l : List JScalar) :
    resultNoConflict (checkValues a l) := by
  induction l with
  | nil => exact rncOk _
  | cons x xs ih =>
      exact rncBind (rncCheckValue a (.scalar x)) (fun _ => ih)

/-- The constant-or-default branch of the value converter never raises
the conflict error. -/
theorem rncOptBranch (a : JAction) (value : JVal) :
    resultNoConflict
      (match value with
       | JVal.scalar (JScalar.str s) => do
           let v ← getValue a s
           checkValue a (JVal.scalar v)
           Except.ok (JVal.scalar v)
       | v => Except.ok v) := by
  match value with
  | .scalar (.str s) =>
      exact rncBind (rncGetValue a s) (fun v => rncBind (rncCheckValue _ _) (fun _ => rncOk _))
  | .scalar .undef => exact rncOk _
  | .scalar .null => exact rncOk _
  | .scalar (.num n) => exact rncOk _
  | .scalar (.bool b) => exact rncOk _
  | .list xs => exact rncOk _

/-- A choice check followed by the checked value never raises the
conflict error. -/
theorem rncCheckThenOk (a : JAction) (val : JVal) :
    resultNoConflict (do checkValue a val; Except.ok val) :=
  rncBind (rncCheckValue a val) (fun _ => rncOk _)

/-- The branch chain of the value converter never raises the conflict
error. -/
theorem rncGetValuesCore (a : JAction) (l : List String) :
    resultNoConflict (getValuesCore a l) := by
  unfold getValuesCore
  repeat' first
    | exact rncOptBranch _ _
    | exact rncCheckThenOk _ _
    | exact rncOk _
    | exact rncGetValue _ _
    | exact rncCheckValue _ _
    | exact rncMapGetValues _ _
    | exact rncCheckValues _ _
    | apply rncBind
    | intro _
    | split

/-- The value converter never raises the conflict error. -/
theorem rncGetValues (a : JAction) (l : List String) :
    resultNoConflict (getValues a l) := by
  unfold getValues
  exact rncGetValuesCore a _

/-- Firing an action against the empty conflict map never raises the
conflict error: the conflict lookup finds nothing. -/
theorem rncTakeAction (st : ParseState) (a : JAction) (args : List String)
    (os : Option String) : resultNoConflict (takeAction [] st a args os) := by
  unfold takeAction
  apply rncBind (rncGetValues _ _)
  intro v
  by_cases h1 : v ≠ JVal.scalar JScalar.undef <;>
    by_cases h2 : v ≠ suppressVal <;>
      simp [h1, h2, List.find?, resultNoConflict, exceptOkBind, pure, Except.pure]

/-- Firing a tuple list against the empty conflict map never raises the
conflict error. -/
theorem rncTakeActions (st : ParseState) (ts : List (JAction × List String × String)) :
    resultNoConflict (takeActions [] st ts) := by
  induction ts generalizing st with
  | nil => exact rncOk _
  | cons t rest ih =>
      exact rncBind (rncTakeAction st t.1 t.2.1 (some t.2.2)) (fun st2 => ih st2)

/-- The arity matcher only raises the arity error. -/
theorem rncMatchArgument (a : JAction) (pat : List PChar) :
    resultNoConflict (matchArgument a pat) := by
  unfold matchArgument
  split <;> simp [resultNoConflict, ParseErr.isConflict]

/-- The clustering loop of the option consumer never raises the conflict
error. -/
theorem rncConsumeOptionalGo (S : Schema) (pattern : List PChar)
    (argStrings : List String) (startIndex : Nat) :
    ∀ (fuel : Nat) (action : Option JAction) (os : String) (ea : Option String)
      (ts : List (JAction × List String × String)),
      resultNoConflict (consumeOptionalGo S pattern argStrings startIndex fuel action os ea ts) := by
  intro fuel
  induction fuel with
  | zero =>
      intro action os ea ts
      simp [consumeOptionalGo, resultNoConflict, ParseErr.isConflict]
  | succ n ih =>
      intro action os ea ts
      cases action with
      | none => exact rncOk _
      | some act =>
          rw [consumeOptionalGo]
          split
          · apply rncBind (rncMatchArgument _ _)
            intro cnt
            split
            · -- clustering step: the derived-flag lookup either recurses or
              -- raises the ignored-explicit-argument error
              have haux : ∀ (nea : Option String)
                  (ts2 : List (JAction × List String × String)),
                  resultNoConflict
                    (match lookupOptAct S (jsCharStr os 0 ++ jsCharStr (ea.getD "") 0) with
                     | some action' =>
                         consumeOptionalGo S pattern argStrings startIndex n (some action')
                           (jsCharStr os 0 ++ jsCharStr (ea.getD "") 0) nea ts2
                     | none => Except.error (ParseErr.ignoredExplicitArg act.id)) := by
                intro nea ts2
                cases lookupOptAct S (jsCharStr os 0 ++ jsCharStr (ea.getD "") 0) with
                | none => simp [resultNoConflict, ParseErr.isConflict]
                | some a2 => exact ih _ _ _ _
              split
              · exact haux none _
              · exact haux (some (jsDrop (ea.getD "") 1)) _
            · split
              · exact rncOk _
              · simp [resultNoConflict, ParseErr.isConflict]
          · apply rncBind (rncMatchArgument _ _)
            intro cnt
            exact rncOk _

/-- Consuming one option against the empty conflict map never raises the
conflict error. -/
theorem rncConsumeOptional (S : Schema) (pattern : List PChar)
    (argStrings : List String) (m : List (Nat × OptionTuple)) (st : ParseState)
    (k : Nat) : resultNoConflict (consumeOptional S pattern argStrings m [] st k) := by
  unfold consumeOptional
  split
  · simp [resultNoConflict, ParseErr.isConflict]
  · apply rncBind (rncConsumeOptionalGo S pattern argStrings k _ _ _ _ _)
    intro out
    cases out
    case pushExtra => exact rncOk _
    case tuples =>
      rename_i ts stop
      dsimp only
      by_cases hlen : ts.length < 1
      · simp [hlen, resultNoConflict, ParseErr.isConflict]
      · rw [if_neg hlen]
        exact rncBind (rncTakeActions st ts) (fun st2 => rncOk _)

/-- The zip-padded positional pass against the empty conflict map never
raises the conflict error. -/
theorem rncConsumePosGo (argStrings : List String) :
    ∀ (pairs : List (JAction × Option Nat)) (st : ParseState) (si : JIdx),
      resultNoConflict (consumePosGo [] argStrings pairs st si) := by
  intro pairs
  induction pairs with
  | nil => intro st si; exact rncOk _
  | cons p rest ih =>
      intro st si
      exact rncBind (rncTakeAction st p.1 _ none) (fun st2 => ih st2 _)

/-- Consuming positionals against the empty conflict map never raises the
conflict error. -/
theorem rncConsumePositionals (S : Schema) (pattern : List PChar)
    (argStrings : List String) (st : ParseState) (si : JIdx) :
    resultNoConflict (consumePositionals S pattern argStrings [] st si) := by
  simp only [consumePositionals]
  split
  · exact rncBind (rncConsumePosGo argStrings _ st si) (fun y => rncOk _)
  · exact rncBind (rncOk _) (fun y => rncOk _)

/-- The prefix-candidate collection only raises the internal error of the
unreachable branch. -/
theorem rncGetOptionTuples (S : Schema) (os : String) :
    resultNoConflict (getOptionTuples S os) := by
  unfold getOptionTuples
  split
  · exact rncOk _
  · split
    · exact rncOk _
    · simp [resultNoConflict, ParseErr.isConflict]

/-- The option resolver only raises the ambiguous-option error (or the
internal unreachable error). -/
theorem rncParseOptional (S : Schema) (arg : String) :
    resultNoConflict (parseOptional S arg) := by
  unfold parseOptional
  repeat' first
    | exact rncOk _
    | apply rncBind (rncGetOptionTuples _ _)
    | intro _
    | dsimp only
    | split
  all_goals simp [resultNoConflict, ParseErr.isConflict]

/-- The token classifier never raises the conflict error. -/
theorem rncClassifyGo (S : Schema) (total : Nat) :
    ∀ l : List (Nat × String), resultNoConflict (classifyGo S total l) := by
  intro l
  induction l with
  | nil => exact rncOk _
  | cons p rest ih =>
      rw [classifyGo]
      split
      · exact rncBind ih (fun r => rncOk _)
      · apply rncBind (rncParseOptional S p.2)
        intro t?
        apply rncBind ih
        intro r
        obtain ⟨pp, mm⟩ := r
        cases t? <;> exact rncOk _

/-- The token classification entry point never raises the conflict
error. -/
theorem rncClassify (S : Schema) (args : List String) :
    resultNoConflict (classify S args) := by
  unfold classify
  exact rncClassifyGo S args.length args.enum

/-- The required sweep only raises the missing-required error. -/
theorem rncCheckRequired (seen : List Nat) (l : List JAction) :
    resultNoConflict (checkRequired seen l) := by
  induction l with
  | nil => exact rncOk _
  | cons a rest ih =>
      rw [checkRequired]
      split
      · simp [resultNoConflict, ParseErr.isConflict]
      · exact ih

/-- The gap-and-option tail never raises the conflict error. -/
theorem rncGapAndOption (S : Schema) (pattern : List PChar) (argStrings : List String)
    (m : List (Nat × OptionTuple)) (st : ParseState) (si : JIdx) (nextOpt : Option Nat) :
    resultNoConflict (gapAndOption S pattern argStrings m [] st si nextOpt) := by
  unfold gapAndOption
  repeat' first
    | exact rncOk _
    | apply rncBind (rncConsumeOptional _ _ _ _ _ _)
    | intro _
    | dsimp only
    | split
  all_goals simp [resultNoConflict, ParseErr.isConflict]

/-- One loop iteration never raises the conflict error. -/
theorem rncParseStep (S : Schema) (pattern : List PChar) (argStrings : List String)
    (m : List (Nat × OptionTuple)) (st : ParseState) (n : Nat) :
    resultNoConflict (parseStep S pattern argStrings m [] st n) := by
  unfold parseStep
  dsimp only
  split
  · apply rncBind (rncConsumePositionals _ _ _ _ _)
    intro p
    obtain ⟨st1, pEnd⟩ := p
    dsimp only
    split
    · exact rncOk _
    · exact rncGapAndOption _ _ _ _ _ _ _
  · exact rncGapAndOption _ _ _ _ _ _ _

/-- The whole loop never raises the conflict error, for any fuel. -/
theorem rncParseLoop (S : Schema) (pattern : List PChar) (argStrings : List String)
    (m : List (Nat × OptionTuple)) (maxOpt : Int) :
    ∀ (fuel : Nat) (st : ParseState) (si : JIdx),
      resultNoConflict (parseLoop S pattern argStrings m maxOpt [] fuel st si) := by
  intro fuel
  induction fuel with
  | zero =>
      intro st si
      simp [parseLoop, resultNoConflict, ParseErr.isConflict]
  | succ n ih =>
      intro st si
      cases si with
      | nan => exact rncOk _
      | idx k =>
          have hstep : parseLoop S pattern argStrings m maxOpt [] (n + 1) st (.idx k)
              = if (k : Int) ≤ maxOpt then
                  (parseStep S pattern argStrings m [] st k) >>= fun p =>
                    match p with
                    | (st2, si2) => parseLoop S pattern argStrings m maxOpt [] n st2 si2
                else .ok (st, .idx k) := rfl
          rw [hstep]
          split
          · exact rncBind (rncParseStep _ _ _ _ _ _)
              (fun p => by obtain ⟨st2, si2⟩ := p; exact ih st2 si2)
          · exact rncOk _

/-- The full parse never raises the conflict error. -/
theorem rncParseKnownArgsState (S : Schema) (argStrings : List String) (ns0 : NS) :
    resultNoConflict (parseKnownArgsState S argStrings ns0) := by
  unfold parseKnownArgsState
  apply rncBind (rncClassify S argStrings)
  intro pm
  obtain ⟨pattern, m⟩ := pm
  dsimp only
  apply rncBind (rncParseLoop _ _ _ _ _ _ _ _)
  intro p1
  obtain ⟨st1, si1⟩ := p1
  dsimp only
  apply rncBind (rncConsumePositionals _ _ _ _ _)
  intro p2
  obtain ⟨st2, stopIdx⟩ := p2
  dsimp only
  split
  · simp [resultNoConflict, ParseErr.isConflict]
  · exact rncBind (rncCheckRequired _ _) (fun _ => rncOk _)

/-- C9: for every schema, input token sequence and seed namespace, the
parse never raises the mutually-exclusive conflict error: the action
conflict map is created empty at the start of `_parseKnownArgs` (the
population is a ToDo in the source), so the conflict branch of the firing
path is unreachable, and firing any action against that empty map is
conflict-free. -/
theorem c9_no_conflict (S : Schema) (argStrings : List String) (ns0 : NS) :
    resultNoConflict (parseKnownArgs S argStrings ns0)
    ∧ ∀ (st : ParseState) (a : JAction) (args : List String) (os : Option String),
        resultNoConflict (takeAction [] st a args os) := by
  constructor
  · unfold parseKnownArgs
    cases h : parseKnownArgsState S argStrings ns0 with
    | ok st => simp [Except.map, h, resultNoConflict]
    | error e =>
        have := rncParseKnownArgsState S argStrings ns0
        rw [h] at this
        simpa [Except.map, h, resultNoConflict] using this
  · intro st a args os
    exact rncTakeAction st a args os
